import Mathlib

/-
Verification of src/hooks/useStateWithSearchParam.tsx.

The hook binds a typed in-memory state to one named URL query parameter.
We shallowly embed its three moving parts:

  * the URL parameter store (react-router URLSearchParams), modelled as an
    ordered association list of (name, value) pairs where reads return the
    first matching entry, set replaces the first matching entry in place
    (dropping later duplicates of the same name) and delete removes all
    entries of the name;
  * the hook state, a record holding the in-memory value _state together
    with the current searchParams snapshot;
  * the three operations of the source: the useState seeding (line 25),
    the setState callback (lines 28 to 45), and the reconciliation effect
    (lines 48 to 54).

JS truthiness matters: line 34 reads if (newParamValue), which is false
both when toParam returned undefined and when it returned the empty
string, so both cases delete the parameter.

A second family of definitions (ArgsE, setStateE, ...) embeds the same
operations with caller-supplied functions that may throw, modelled in the
Except monad, to settle the error-propagation claims.
-/

namespace UseStateWithSearchParam

/-- The URL parameter store: an ordered mapping from names to string values. -/
abbrev Params := List (String × String)

/-- URLSearchParams.get: the value of the first entry with the given name. -/
def getParam : Params → String → Option String
  | [], _ => none
  | p :: rest, n => if p.1 = n then some p.2 else getParam rest n

/-- URLSearchParams.delete: remove every entry with the given name. -/
def deleteParam : Params → String → Params
  | [], _ => []
  | p :: rest, n => if p.1 = n then deleteParam rest n else p :: deleteParam rest n

/-- URLSearchParams.set: replace the value of the first entry with the given
name (removing later duplicates of that name), or append if absent. -/
def setParam : Params → String → String → Params
  | [], n, v => [(n, v)]
  | p :: rest, n, v =>
    if p.1 = n then (n, v) :: deleteParam rest n else p :: setParam rest n v

/-- The configuration record of the hook (source lines 17 to 21):
searchParamName, fromParam (decode, receives the string value or null) and
toParam (encode, returns a string or undefined as the absent marker). -/
structure Args (T : Type) where
  searchParamName : String
  fromParam : Option String → T
  toParam : T → Option String

/-- The state owned by one mounted hook instance: the in-memory value of the
useState cell and the current URL store snapshot. -/
structure Hook (T : Type) where
  _state : T
  searchParams : Params

/-- The argument accepted by setState (source line 29): either a literal new
value or an updater function applied to the previous state. -/
inductive SetStateAction (T : Type) where
  | literal (v : T)
  | updater (f : T → T)

/-- Source line 31: resolve a SetStateAction against the previous state. -/
def SetStateAction.eval {T : Type} : SetStateAction T → T → T
  | .literal v, _ => v
  | .updater f, prev => f prev

/-- Source line 25: seed the state from the current URL parameter value. -/
def useStateInit {T : Type} (args : Args T) (searchParams : Params) : Hook T :=
  { _state := args.fromParam (getParam searchParams args.searchParamName),
    searchParams := searchParams }

/-- Source lines 28 to 45: compute the new value from the previous state,
encode it, and inside the same update step either set the parameter (when
the encoded value is truthy, i.e. a nonempty string) or delete it (when the
encoded value is undefined or the empty string), then commit the new value
as the in-memory state. -/
def setState {T : Type} (args : Args T) (value : SetStateAction T) (h : Hook T) : Hook T :=
  let newValue := value.eval h._state
  let newParamValue := args.toParam newValue
  let searchParams :=
    match newParamValue with
    | some s =>
      if s.isEmpty then deleteParam h.searchParams args.searchParamName
      else setParam h.searchParams args.searchParamName s
    | none => deleteParam h.searchParams args.searchParamName
  { _state := newValue, searchParams := searchParams }

/-- Source lines 48 to 54: the reconciliation effect. Decode the current
parameter value; if it differs from the in-memory state, replace the state;
the URL store is never written. -/
def reconcileEffect {T : Type} [DecidableEq T] (args : Args T) (h : Hook T) : Hook T :=
  let paramValue := getParam h.searchParams args.searchParamName
  let newValue := args.fromParam paramValue
  if h._state ≠ newValue then { h with _state := newValue } else h

/-- Decimal value of a digit character. -/
def charDigit (c : Char) : Nat := c.toNat - 48

/-- Accumulate the decimal value of a digit string, most significant first. -/
def natOfChars : List Char → Nat → Nat
  | [], acc => acc
  | c :: cs, acc => natOfChars cs (acc * 10 + charDigit c)

/-- The JS Number conversion restricted to decimal digit strings (the only
strings the spec examples apply it to), modelled on Nat. -/
def strNum (s : String) : Nat := natOfChars s.data 0

/-- The configuration used by the spec examples: parameterName q,
decode s = if s then Number(s) else 0, encode v = if v is 0 then undefined
else String(v), with numbers modelled as Nat. -/
def numFromParam : Option String → Nat
  | none => 0
  | some s => if s.isEmpty then 0 else strNum s

/-- Encode of the spec examples: 0 maps to the absent marker. -/
def numToParam (v : Nat) : Option String :=
  if v = 0 then none else some (toString v)

/-- The spec example configuration on parameter q. -/
def cfgSpec : Args Nat :=
  { searchParamName := "q", fromParam := numFromParam, toParam := numToParam }

/-- A configuration whose encode can return the empty string: encode 0 is
the empty string (a present string in the sense of the spec), every other
number encodes to its decimal string. -/
def cfgEmpty : Args Nat :=
  { searchParamName := "q", fromParam := numFromParam,
    toParam := fun v => if v = 0 then some "" else some (toString v) }

/-- A Boolean configuration satisfying the round-trip law even on the empty
string: encode true is the empty string, encode false is the string f;
decode inverts both and sends absence to false. -/
def cfgBool : Args Bool :=
  { searchParamName := "q",
    fromParam := fun o => match o with | some s => s.isEmpty | none => false,
    toParam := fun v => if v then some "" else some "f" }

/-- A Boolean configuration that never encodes to the empty string: true
maps to the string t, false to the string f, and decode inverts them. -/
def cfgBoolPlain : Args Bool :=
  { searchParamName := "q",
    fromParam := fun o => match o with | some "t" => true | _ => false,
    toParam := fun v => if v then some "t" else some "f" }

/-- The configuration record with caller-supplied functions that may throw,
modelled in the Except monad. -/
structure ArgsE (T E : Type) where
  searchParamName : String
  fromParam : Option String → Except E T
  toParam : T → Except E (Option String)

/-- setState argument whose updater function may throw. -/
inductive SetStateActionE (T E : Type) where
  | literal (v : T)
  | updater (f : T → Except E T)

/-- Resolve a possibly throwing SetStateActionE against the previous state. -/
def SetStateActionE.eval {T E : Type} : SetStateActionE T E → T → Except E T
  | .literal v, _ => .ok v
  | .updater f, prev => f prev

/-- Source line 25 with a throwing decode: the useState seeding either
yields the hook state or surfaces the error of fromParam unchanged. -/
def useStateInitE {T E : Type} (args : ArgsE T E) (searchParams : Params) :
    Except E (Hook T) :=
  match args.fromParam (getParam searchParams args.searchParamName) with
  | .error e => .error e
  | .ok v => .ok { _state := v, searchParams := searchParams }

/-- Source lines 28 to 45 with throwing collaborators, in source order: the
updater runs first (line 31), then toParam (line 32), and only then are the
store mutation (lines 34 to 39) and the state commit (line 41) performed.
The returned pair is the committed state (or the uncaught error) together
with the URL store after the call. -/
def setStateE {T E : Type} (args : ArgsE T E) (value : SetStateActionE T E)
    (st : T) (searchParams : Params) : Except E T × Params :=
  match value.eval st with
  | .error e => (.error e, searchParams)
  | .ok newValue =>
    match args.toParam newValue with
    | .error e => (.error e, searchParams)
    | .ok newParamValue =>
      match newParamValue with
      | some s =>
        if s.isEmpty then (.ok newValue, deleteParam searchParams args.searchParamName)
        else (.ok newValue, setParam searchParams args.searchParamName s)
      | none => (.ok newValue, deleteParam searchParams args.searchParamName)

/-- Source lines 48 to 54 with a throwing decode: the reconciliation effect
either yields the reconciled state or surfaces the error unchanged; it
never writes the store. -/
def reconcileEffectE {T E : Type} [DecidableEq T] (args : ArgsE T E)
    (st : T) (searchParams : Params) : Except E T :=
  match args.fromParam (getParam searchParams args.searchParamName) with
  | .error e => .error e
  | .ok newValue => .ok (if st ≠ newValue then newValue else st)

/-- A concrete throwing configuration: decode throws on an absent value,
encode throws exactly on the value 7. -/
def cfgE : ArgsE Nat String :=
  { searchParamName := "q",
    fromParam := fun o => match o with
      | none => .error "missing"
      | some s => .ok (strNum s),
    toParam := fun v => if v = 7 then .error "unencodable" else .ok (some (toString v)) }

theorem getParam_setParam_self (ps : Params) (n v : String) :
    getParam (setParam ps n v) n = some v := by
  induction ps with
  | nil => simp [setParam, getParam]
  | cons p rest ih =>
    by_cases h : p.1 = n <;> simp [setParam, getParam, h, ih]

theorem getParam_deleteParam_self (ps : Params) (n : String) :
    getParam (deleteParam ps n) n = none := by
  induction ps with
  | nil => simp [deleteParam, getParam]
  | cons p rest ih =>
    by_cases h : p.1 = n <;> simp [deleteParam, getParam, h, ih]

theorem getParam_deleteParam_ne (ps : Params) (n k : String) (hk : k ≠ n) :
    getParam (deleteParam ps n) k = getParam ps k := by
  have hnk : ¬ n = k := fun hh => hk hh.symm
  have hkn : ¬ k = n := hk
  induction ps with
  | nil => simp [deleteParam]
  | cons p rest ih =>
    by_cases h : p.1 = n
    · have : ¬ p.1 = k := by rw [h]; exact hnk
      simp [deleteParam, getParam, h, hnk, this, ih]
    · by_cases h2 : p.1 = k <;> simp [deleteParam, getParam, h, h2, hkn, hnk, ih]

theorem getParam_setParam_ne (ps : Params) (n v k : String) (hk : k ≠ n) :
    getParam (setParam ps n v) k = getParam ps k := by
  have hnk : ¬ n = k := fun hh => hk hh.symm
  have hkn : ¬ k = n := hk
  induction ps with
  | nil => simp [setParam, getParam, hnk]
  | cons p rest ih =>
    by_cases h : p.1 = n
    · have : ¬ p.1 = k := by rw [h]; exact hnk
      simp [setParam, getParam, h, hnk, this, getParam_deleteParam_ne rest n k hk]
    · by_cases h2 : p.1 = k <;> simp [setParam, getParam, h, h2, hkn, hnk, ih]

/-- Claim C1, counterexample. The claim as stated fails on the code: under
the spec example configuration, seeding from the URL q=0 reaches a settling
point (the reconciliation effect is a no-op) whose state 0 encodes to the
absent marker, yet the key q is still present in the store with value 0 —
the code never removes a parameter outside its own setState. -/
theorem C1_counterexample :
    reconcileEffect cfgSpec (useStateInit cfgSpec [("q","0")]) =
      useStateInit cfgSpec [("q","0")] ∧
    cfgSpec.toParam (useStateInit cfgSpec [("q","0")])._state = none ∧
    getParam (useStateInit cfgSpec [("q","0")]).searchParams "q" = some "0" := by
  refine ⟨by simp [reconcileEffect, useStateInit], by decide, by decide⟩

/-- Claim C1, amended. At every settling point (a hook state fixed by the
reconciliation effect) the decode of the stored value of parameterName is
value-equal to the in-memory state; moreover one reconciliation pass always
reaches a settling point. The absent-marker clause of the original claim
does not hold in general: when encode of the current state is the absent
marker, the key may still be present. -/
theorem C1_amended_settling_invariant (T : Type) [DecidableEq T] (args : Args T) :
    (∀ h : Hook T, reconcileEffect args h = h →
      args.fromParam (getParam h.searchParams args.searchParamName) = h._state) ∧
    (∀ h : Hook T, reconcileEffect args (reconcileEffect args h) = reconcileEffect args h) := by
  constructor
  · intro h hs
    by_cases he : h._state = args.fromParam (getParam h.searchParams args.searchParamName)
    · exact he.symm
    · have hst := congrArg Hook._state hs
      simp [reconcileEffect, he] at hst
      exact hst
  · intro h
    by_cases he : h._state = args.fromParam (getParam h.searchParams args.searchParamName)
    · simp [reconcileEffect, he]
    · simp [reconcileEffect, he]

/-- Claim C1, witness: the settled hook state 5 with stored q=5 satisfies
the amended invariant, and reconciliation from the unsettled state 0 with
stored q=5 settles in one pass. -/
theorem C1_amended_witness :
    reconcileEffect cfgSpec { _state := 5, searchParams := [("q","5")] } =
      { _state := 5, searchParams := [("q","5")] } ∧
    cfgSpec.fromParam (getParam [("q","5")] cfgSpec.searchParamName) = 5 ∧
    reconcileEffect cfgSpec (reconcileEffect cfgSpec
        { _state := 0, searchParams := [("q","5")] }) =
      reconcileEffect cfgSpec { _state := 0, searchParams := [("q","5")] } := by
  have hs : reconcileEffect cfgSpec { _state := 5, searchParams := [("q","5")] } =
      { _state := 5, searchParams := [("q","5")] } := by
    have h5 : cfgSpec.fromParam (getParam [("q","5")] cfgSpec.searchParamName) = 5 := by decide
    simp [reconcileEffect, h5]
  exact ⟨hs, (C1_amended_settling_invariant Nat cfgSpec).1 _ hs,
    (C1_amended_settling_invariant Nat cfgSpec).2 { _state := 0, searchParams := [("q","5")] }⟩

/-- Claim C2, counterexample. The claim as stated fails on the code: with
an encode that returns the empty string on 0 (a present string, not the
absent marker), update(0) deletes the key q instead of writing q with the
empty value, because line 34 tests JS truthiness and the empty string is
falsy. -/
theorem C2_counterexample :
    cfgEmpty.toParam 0 = some "" ∧
    getParam (setState cfgEmpty (.literal 0)
      { _state := 5, searchParams := [("q","5")] }).searchParams "q" = none :=
  ⟨by decide, by decide⟩

/-- Claim C2, amended. If encode of the next value is a nonempty string s,
setState writes parameterName to s (replacing any prior value); if encode
returns the absent marker or the empty string, setState removes the key
entirely. The spec example (encode sending 0 to undefined, update(0)
removing the key) is an instance of the removal branch. -/
theorem C2_amended (T : Type) (args : Args T) (value : SetStateAction T) (h : Hook T) :
    (∀ s : String, args.toParam (value.eval h._state) = some s → s ≠ "" →
      (setState args value h).searchParams = setParam h.searchParams args.searchParamName s ∧
      getParam (setState args value h).searchParams args.searchParamName = some s) ∧
    ((args.toParam (value.eval h._state) = none ∨ args.toParam (value.eval h._state) = some "") →
      (setState args value h).searchParams = deleteParam h.searchParams args.searchParamName ∧
      getParam (setState args value h).searchParams args.searchParamName = none) := by
  constructor
  · intro s henc hs
    have hne : s.isEmpty = false := by
      rw [Bool.eq_false_iff]
      intro hem
      exact hs ((String.isEmpty_iff s).mp hem)
    constructor
    · simp [setState, henc, hne]
    · simp [setState, henc, hne, getParam_setParam_self]
  · intro henc
    rcases henc with henc | henc
    · exact ⟨by simp [setState, henc], by simp [setState, henc, getParam_deleteParam_self]⟩
    · have h0 : "".isEmpty = true := by decide
      exact ⟨by simp [setState, henc, h0],
        by simp [setState, henc, h0, getParam_deleteParam_self]⟩

/-- Claim C2, witness: under the spec configuration update(7) writes q=7,
and update(0), whose encode is the absent marker, removes q. -/
theorem C2_amended_witness :
    (cfgSpec.toParam ((SetStateAction.literal 7).eval (5 : Nat)) = some "7" ∧ "7" ≠ "" ∧
      (setState cfgSpec (.literal 7) { _state := 5, searchParams := [] }).searchParams =
        setParam [] "q" "7" ∧
      getParam (setState cfgSpec (.literal 7)
        { _state := 5, searchParams := [] }).searchParams "q" = some "7") ∧
    (cfgSpec.toParam ((SetStateAction.literal 0).eval (5 : Nat)) = none ∧
      (setState cfgSpec (.literal 0) { _state := 5, searchParams := [("q","5")] }).searchParams =
        deleteParam [("q","5")] "q" ∧
      getParam (setState cfgSpec (.literal 0)
        { _state := 5, searchParams := [("q","5")] }).searchParams "q" = none) := by
  refine ⟨⟨by decide, by decide, ?_⟩, ⟨by decide, ?_⟩⟩
  · exact (C2_amended Nat cfgSpec (.literal 7) { _state := 5, searchParams := [] }).1 "7"
      (by decide) (by decide)
  · exact (C2_amended Nat cfgSpec (.literal 0) { _state := 5, searchParams := [("q","5")] }).2
      (Or.inl (by decide))

/-- Claim C3: the reconciliation effect decodes the current parameter value
and replaces the in-memory state with the decoded value whenever they
differ, and it never writes the URL store; in particular an external
change of q from 7 to 9 under the spec configuration sets the state to 9
with the store untouched. -/
theorem C3_reconcile_decodes_never_writes :
    (∀ (T : Type) (inst : DecidableEq T) (args : Args T) (h : Hook T),
      (reconcileEffect args h).searchParams = h.searchParams ∧
      (reconcileEffect args h)._state =
        args.fromParam (getParam h.searchParams args.searchParamName)) ∧
    reconcileEffect cfgSpec { _state := 7, searchParams := [("q","9")] } =
      { _state := 9, searchParams := [("q","9")] } := by
  constructor
  · intro T inst args h
    constructor
    · by_cases hne : h._state = args.fromParam (getParam h.searchParams args.searchParamName) <;>
        simp [reconcileEffect, hne]
    · by_cases hne : h._state = args.fromParam (getParam h.searchParams args.searchParamName) <;>
        simp [reconcileEffect, hne]
  · have h9 : cfgSpec.fromParam (getParam [("q","9")] cfgSpec.searchParamName) = 9 := by decide
    simp [reconcileEffect, h9]

/-- Claim C4: successive setState calls compose in call order, each updater
reading the result committed by the previous call; in particular two
increments from state 1 yield 3, not 2. -/
theorem C4_sequential_updates :
    (∀ (T : Type) (args : Args T) (f g : T → T) (h : Hook T),
      (setState args (.updater g) (setState args (.updater f) h))._state = g (f h._state)) ∧
    (setState cfgSpec (.updater (fun v => v + 1))
      (setState cfgSpec (.updater (fun v => v + 1))
        { _state := 1, searchParams := [("q","1")] }))._state = 3 := by
  refine ⟨fun T args f g h => rfl, by decide⟩

/-- Claim C5: the initial state is decode of the current URL value of
parameterName, with absence passed as the null-like marker; with the spec
configuration, q=5 seeds state 5 and a missing q seeds state 0. -/
theorem C5_initial_state :
    (∀ (T : Type) (args : Args T) (searchParams : Params),
      (useStateInit args searchParams)._state =
        args.fromParam (getParam searchParams args.searchParamName)) ∧
    (useStateInit cfgSpec [("q","5")])._state = 5 ∧
    (useStateInit cfgSpec [])._state = 0 := by
  refine ⟨fun T args ps => rfl, by decide, by decide⟩

/-- Claim C6: one setState call commits the new in-memory state and
performs the URL-store write within the same logical update step, so both
are observable immediately after the call; concretely update(7) from state
0 yields state 7 and stored q=7 in one step. -/
theorem C6_same_step_commit :
    (∀ (T : Type) (args : Args T) (value : SetStateAction T) (h : Hook T),
      (setState args value h)._state = value.eval h._state) ∧
    (setState cfgSpec (.literal 7) { _state := 0, searchParams := [] })._state = 7 ∧
    getParam (setState cfgSpec (.literal 7)
      { _state := 0, searchParams := [] }).searchParams "q" = some "7" := by
  refine ⟨fun T args v h => rfl, by decide, by decide⟩

/-- Claim C7, counterexample. The end-to-end round-trip fails on the code
for a well-behaved configuration: cfgBool satisfies decode(encode(v)) = v
on both elements of Bool and encode is always present, yet update(true),
whose encoded value is the empty string, deletes the key (JS truthiness),
so decoding the stored value yields false, not true, and the subsequent
reconciliation pass flips the state to false. -/
theorem C7_counterexample :
    cfgBool.toParam true = some "" ∧
    cfgBool.toParam false = some "f" ∧
    cfgBool.fromParam (cfgBool.toParam true) = true ∧
    cfgBool.fromParam (cfgBool.toParam false) = false ∧
    (setState cfgBool (.literal true) { _state := false, searchParams := [] })._state = true ∧
    cfgBool.fromParam (getParam (setState cfgBool (.literal true)
      { _state := false, searchParams := [] }).searchParams "q") = false ∧
    (reconcileEffect cfgBool (setState cfgBool (.literal true)
      { _state := false, searchParams := [] }))._state = false := by
  refine ⟨by decide, by decide, by decide, by decide, by decide, by decide, by decide⟩

/-- Claim C7, amended. Under the round-trip hypothesis restricted to
truthy encodings — decode(encode(v)) = v whenever encode(v) is a nonempty
string — after update(v) with encode(v) a nonempty string, decoding the
stored parameter value yields v, the committed state is v, and the
subsequent reconciliation pass leaves the hook state unchanged. -/
theorem C7_amended (T : Type) [DecidableEq T] (args : Args T)
    (hrt : ∀ (v : T) (s : String), args.toParam v = some s → s ≠ "" →
      args.fromParam (some s) = v)
    (v : T) (h : Hook T) (s : String)
    (henc : args.toParam v = some s) (hs : s ≠ "") :
    args.fromParam (getParam (setState args (.literal v) h).searchParams
      args.searchParamName) = v ∧
    (setState args (.literal v) h)._state = v ∧
    reconcileEffect args (setState args (.literal v) h) = setState args (.literal v) h := by
  have hne : s.isEmpty = false := by
    rw [Bool.eq_false_iff]
    intro hem
    exact hs ((String.isEmpty_iff s).mp hem)
  have hparams : (setState args (.literal v) h).searchParams =
      setParam h.searchParams args.searchParamName s := by
    simp [setState, SetStateAction.eval, henc, hne]
  have hget : getParam (setState args (.literal v) h).searchParams args.searchParamName =
      some s := by
    rw [hparams, getParam_setParam_self]
  have hdec : args.fromParam (getParam (setState args (.literal v) h).searchParams
      args.searchParamName) = v := by
    rw [hget]
    exact hrt v s henc hs
  have hstate : (setState args (.literal v) h)._state = v := rfl
  refine ⟨hdec, hstate, ?_⟩
  simp [reconcileEffect, hdec, hstate]

/-- Claim C7, witness: cfgBoolPlain satisfies the truthy round-trip
hypothesis, and update(true) stores q=t, commits true, decodes back to
true and is left unchanged by reconciliation. -/
theorem C7_amended_witness :
    (∀ (v : Bool) (s : String), cfgBoolPlain.toParam v = some s → s ≠ "" →
      cfgBoolPlain.fromParam (some s) = v) ∧
    cfgBoolPlain.toParam true = some "t" ∧ "t" ≠ "" ∧
    (cfgBoolPlain.fromParam (getParam (setState cfgBoolPlain (.literal true)
        { _state := false, searchParams := [] }).searchParams
        cfgBoolPlain.searchParamName) = true ∧
      (setState cfgBoolPlain (.literal true)
        { _state := false, searchParams := [] })._state = true ∧
      reconcileEffect cfgBoolPlain (setState cfgBoolPlain (.literal true)
          { _state := false, searchParams := [] }) =
        setState cfgBoolPlain (.literal true) { _state := false, searchParams := [] }) := by
  have hrt : ∀ (v : Bool) (s : String), cfgBoolPlain.toParam v = some s → s ≠ "" →
      cfgBoolPlain.fromParam (some s) = v := by
    intro v s hv hs
    cases v
    · simp [cfgBoolPlain] at hv
      subst hv
      decide
    · simp [cfgBoolPlain] at hv
      subst hv
      decide
  exact ⟨hrt, by decide, by decide,
    C7_amended Bool cfgBoolPlain hrt true { _state := false, searchParams := [] } "t"
      (by decide) (by decide)⟩

/-- Claim C8: a throwing decode or encode surfaces its error unchanged —
the same error value, not caught, not wrapped, with no validation or retry
— from the seeding, from setState (whether the updater or the encode
throws), and from the reconciliation effect. -/
theorem C8_errors_propagate_uncaught (T E : Type) [DecidableEq T] (args : ArgsE T E) :
    (∀ (searchParams : Params) (e : E),
      args.fromParam (getParam searchParams args.searchParamName) = .error e →
      useStateInitE args searchParams = .error e) ∧
    (∀ (value : SetStateActionE T E) (st : T) (searchParams : Params) (e : E),
      value.eval st = .error e →
      setStateE args value st searchParams = (.error e, searchParams)) ∧
    (∀ (value : SetStateActionE T E) (st : T) (searchParams : Params) (nv : T) (e : E),
      value.eval st = .ok nv → args.toParam nv = .error e →
      setStateE args value st searchParams = (.error e, searchParams)) ∧
    (∀ (st : T) (searchParams : Params) (e : E),
      args.fromParam (getParam searchParams args.searchParamName) = .error e →
      reconcileEffectE args st searchParams = .error e) := by
  refine ⟨?_, ?_, ?_, ?_⟩
  · intro ps e hd
    simp [useStateInitE, hd]
  · intro value st ps e hv
    simp [setStateE, hv]
  · intro value st ps nv e hv he
    simp [setStateE, hv, he]
  · intro st ps e hd
    simp [reconcileEffectE, hd]

/-- Claim C8, witness: under cfgE the decode error on an absent q surfaces
from seeding and reconciliation, a throwing updater surfaces from
setState, and the encode error on 7 surfaces from setState. -/
theorem C8_witness :
    (cfgE.fromParam (getParam [] cfgE.searchParamName) = .error "missing" ∧
      useStateInitE cfgE [] = Except.error "missing") ∧
    ((SetStateActionE.updater (fun _ => Except.error "boom")).eval (0 : Nat) =
        Except.error "boom" ∧
      setStateE cfgE (.updater (fun _ => .error "boom")) 0 [] = (.error "boom", [])) ∧
    ((SetStateActionE.literal 7 : SetStateActionE Nat String).eval 1 = Except.ok 7 ∧
      cfgE.toParam 7 = .error "unencodable" ∧
      setStateE cfgE (.literal 7) 1 [("x","1")] = (.error "unencodable", [("x","1")])) ∧
    (cfgE.fromParam (getParam [] cfgE.searchParamName) = .error "missing" ∧
      reconcileEffectE cfgE 3 [] = Except.error "missing") := by
  refine ⟨⟨rfl, ?_⟩, ⟨rfl, ?_⟩, ⟨rfl, rfl, ?_⟩, ⟨rfl, ?_⟩⟩
  · exact (C8_errors_propagate_uncaught Nat String cfgE).1 [] "missing" rfl
  · exact (C8_errors_propagate_uncaught Nat String cfgE).2.1 _ 0 [] "boom" rfl
  · exact (C8_errors_propagate_uncaught Nat String cfgE).2.2.1 _ 1 [("x","1")] 7
      "unencodable" rfl rfl
  · exact (C8_errors_propagate_uncaught Nat String cfgE).2.2.2 3 [] "missing" rfl

/-- Claim C9: a setState call whose updater or encode throws is atomic in
its failure — the error is returned with no state committed and the URL
store exactly as before, because encode runs before any store mutation and
before the state commit. -/
theorem C9_failed_update_is_atomic (T E : Type) (args : ArgsE T E)
    (value : SetStateActionE T E) (st : T) (searchParams : Params) (e : E)
    (hfail : value.eval st = .error e ∨
      ∃ nv, value.eval st = .ok nv ∧ args.toParam nv = .error e) :
    setStateE args value st searchParams = (.error e, searchParams) := by
  rcases hfail with hv | ⟨nv, hv, he⟩
  · simp [setStateE, hv]
  · simp [setStateE, hv, he]

/-- Claim C9, witness: a throwing updater leaves the store with q=2
untouched and commits nothing. -/
theorem C9_witness :
    ((SetStateActionE.updater (fun _ => Except.error "kaput")).eval (2 : Nat) =
        Except.error "kaput" ∨
      ∃ nv, (SetStateActionE.updater (fun _ => Except.error "kaput")).eval (2 : Nat) =
          Except.ok nv ∧ cfgE.toParam nv = Except.error "kaput") ∧
    setStateE cfgE (.updater (fun _ => .error "kaput")) 2 [("q","2")] =
      (.error "kaput", [("q","2")]) :=
  ⟨Or.inl rfl,
    C9_failed_update_is_atomic Nat String cfgE (.updater (fun _ => .error "kaput")) 2
      [("q","2")] "kaput" (Or.inl rfl)⟩

/-- Claim C10: setState changes at most the entry named parameterName —
every other key keeps its presence and its string value. -/
theorem C10_frame (T : Type) (args : Args T) (value : SetStateAction T) (h : Hook T)
    (k : String) (hk : k ≠ args.searchParamName) :
    getParam (setState args value h).searchParams k = getParam h.searchParams k := by
  unfold setState
  cases henc : args.toParam (value.eval h._state) with
  | none => simp [henc, getParam_deleteParam_ne _ _ _ hk]
  | some s =>
    by_cases hs : s.isEmpty <;>
      simp [henc, hs, getParam_deleteParam_ne _ _ _ hk, getParam_setParam_ne _ _ _ _ hk]

/-- Claim C10, witness: updating q leaves the unrelated key x untouched. -/
theorem C10_frame_witness :
    "x" ≠ "q" ∧
    getParam (setState cfgSpec (.literal 7)
      { _state := 0, searchParams := [("x","1")] }).searchParams "x" =
      getParam [("x","1")] "x" :=
  ⟨by decide,
    C10_frame Nat cfgSpec (.literal 7) { _state := 0, searchParams := [("x","1")] } "x"
      (by decide)⟩

end UseStateWithSearchParam
